import Mathlib

/-!
Verification of the AutoResume core against its specification.

The development shallowly embeds the pure cores of three modules:
`src/tools/latex_parser.py` (structural validator and document model),
`src/utils/user_profiles.py` (profile store), and
`src/tools/job_fetcher.py` (content-acquisition pipeline).

Python strings are modelled as Lean `String` values manipulated through
their code-point lists (`String.data`), matching Python's code-point
semantics for indexing, slicing and `len`.  File-system and network
effects are made explicit: the profile directory becomes an association
list from file name to stored profile, and the fetcher's environment
(HTTP response, rendering capability, rendered page) becomes an explicit
`FetchWorld` record.
-/

namespace AutoResume

/-- Embedding of Python `pat in s` / `str.startswith` at a position:
`isPrefixList pat l` is true when `pat` is a prefix of `l`. -/
def isPrefixList : List Char → List Char → Bool
  | [], _ => true
  | _ :: _, [] => false
  | a :: as, b :: bs => a = b && isPrefixList as bs

/-- Embedding of Python `pat in s` on code-point lists. -/
def listContains : List Char → List Char → Bool
  | l, pat =>
    match l with
    | [] => isPrefixList pat []
    | _ :: rest => isPrefixList pat l || listContains rest pat

/-- Embedding of Python `pat in s` on strings. -/
def strContains (s pat : String) : Bool :=
  listContains s.data pat.data

/-- Embedding of Python `s.find(pat)` on code-point lists: index of the
first occurrence, `none` when absent (Python returns `-1`). -/
def listFindFrom (pat : List Char) : List Char → Option Nat
  | [] => if isPrefixList pat [] then some 0 else none
  | l@(_ :: rest) =>
    if isPrefixList pat l then some 0
    else (listFindFrom pat rest).map (fun n => n + 1)

/-- Embedding of Python `s.find(pat)` on strings (`none` for `-1`). -/
def strFind (s pat : String) : Option Nat :=
  listFindFrom pat.data s.data

/-- Python slice `s[:n]` by code points. -/
def pyTake (s : String) (n : Nat) : String :=
  String.mk (s.data.take n)

/-- Python slice `s[n:]` by code points. -/
def pyDrop (s : String) (n : Nat) : String :=
  String.mk (s.data.drop n)

/-- ASCII whitespace as recognised by Python `\s` and `str.strip`
(the inputs under verification are ASCII, so the Unicode-only
whitespace code points are irrelevant). -/
def isPySpace (c : Char) : Bool :=
  c = ' ' || c = '\t' || c = '\n' || c = '\r' || c = '\x0b' || c = '\x0c'

/-- Embedding of Python `str.strip()`. -/
def pyStrip (s : String) : String :=
  String.mk (((s.data.dropWhile isPySpace).reverse.dropWhile isPySpace).reverse)

/-- Embedding of Python `str.lower()` for ASCII text. -/
def pyLower (s : String) : String :=
  String.mk (s.data.map Char.toLower)

/-! ## Structural validator (`validate_latex`) -/

/-- The document-start marker searched for by the parser and validator. -/
def beginDocumentMarker : String := "\\begin\x7bdocument\x7d"

/-- The document-end marker searched for by the validator. -/
def endDocumentMarker : String := "\\end\x7bdocument\x7d"

/-- The document-class declaration marker. -/
def documentclassMarker : String := "\\documentclass"

/-- Embedding of the brace-scanning loop of `validate_latex`
(lines 80-88): walk the characters with a running depth, and on the
first dip below zero record the closing-brace issue and stop (`break`).
Returns the recorded issues together with the final depth. -/
def braceScan : List Char → Nat → Int → List String × Int
  | [], _, depth => ([], depth)
  | c :: rest, i, depth =>
    let depth' : Int :=
      if c = '\x7b' then depth + 1
      else if c = '\x7d' then depth - 1
      else depth
    if depth' < 0 then
      (["Unmatched closing brace at position " ++ toString i], depth')
    else
      braceScan rest (i + 1) depth'

/-- Issues produced by the brace-balance check of `validate_latex`:
the loop's closing-brace issue, then the positive-depth issue. -/
def braceIssueList (content : String) : List String :=
  let scan := braceScan content.data 0 0
  scan.1 ++
    (if scan.2 > 0 then
      ["Unmatched opening braces (depth: " ++ toString scan.2 ++ ")"]
    else [])

/-- Issues produced by the document-environment check of
`validate_latex` (lines 94-97). -/
def markerIssueList (content : String) : List String :=
  if strContains content beginDocumentMarker &&
     !(strContains content endDocumentMarker) then
    ["Missing \\end\x7bdocument\x7d"]
  else if strContains content endDocumentMarker &&
     !(strContains content beginDocumentMarker) then
    ["Missing \\begin\x7bdocument\x7d"]
  else []

/-- Issue produced by the document-class check of `validate_latex`
(lines 100-101). -/
def docclassIssueList (content : String) : List String :=
  if !(strContains content documentclassMarker) then
    ["Missing \\documentclass (might be okay for snippets)"]
  else []

/-- Embedding of the source function validate_latex_syntax
(latex_parser.py lines 67-103), renamed here:
the issue list accumulates the three checks in program order and
`is_valid` is `len(issues) == 0`. -/
def validate_latex (content : String) : Bool × List String :=
  let issues := braceIssueList content ++ markerIssueList content ++
    docclassIssueList content
  (issues.length == 0, issues)

/-! ## Document model (`read_latex_resume`)

The section regex `\\section\*?\{([^}]+)\}(.*?)(?=\\section|\Z)` with
`re.DOTALL` is embedded directly: `[^}]+` is the maximal nonempty run
of non-`}` characters (it cannot backtrack past the closing `}`), the
non-greedy `(.*?)` with the lookahead stops at the nearest following
literal `\section` or at end of text, and `re.finditer` resumes at the
match end (the lookahead position), advancing one character on
failure. -/

/-- Characters of the literal `\section` searched for by the regex. -/
def sectionCmdChars : List Char := "\\section".data

/-- Index of the nearest position whose suffix starts with `\section`,
or the length of the list when none does — the stop position of the
non-greedy `(.*?)(?=\\section|\Z)` group. -/
def findStop : List Char → Nat
  | [] => 0
  | l@(_ :: rest) => if isPrefixList sectionCmdChars l then 0 else 1 + findStop rest

/-- Attempt the section regex at the head of `l`. On success returns
the heading (group 1, untrimmed), the raw body (group 2) and the list
remainder at the match end. -/
def matchSectionAt (l : List Char) : Option (String × String × List Char) :=
  if isPrefixList sectionCmdChars l then
    let l1 := l.drop sectionCmdChars.length
    let l2 := match l1 with
      | '*' :: rest => rest
      | _ => l1
    match l2 with
    | '\x7b' :: l3 =>
      let name := l3.takeWhile (fun c => c ≠ '\x7d')
      if name.isEmpty then none
      else
        match l3.drop name.length with
        | '\x7d' :: l5 =>
          let stop := findStop l5
          some (String.mk name, String.mk (l5.take stop), l5.drop stop)
        | _ => none
    | _ => none
  else none

/-- Embedding of `re.finditer` with the section pattern: try the match
at each position, resuming after each match. Fuel boundedly exceeds the
number of scanning steps (every step strictly shortens the list), so
the cutoff is never reached. Section bodies are stripped as in the
source (`section_content.strip()`). -/
def findSectionsAux : Nat → List Char → List (String × String)
  | 0, _ => []
  | _ + 1, [] => []
  | fuel + 1, l@(_ :: rest) =>
    match matchSectionAt l with
    | some (name, body, rest') => (name, pyStrip body) :: findSectionsAux fuel rest'
    | none => findSectionsAux fuel rest

/-- All `(heading, stripped body)` pairs in match order. -/
def find_sections (l : List Char) : List (String × String) :=
  findSectionsAux l.length l

/-- Embedding of Python dict assignment `d[k] = v`: overwrite in place
when the key exists (keeping its insertion position), else append. -/
def dictInsert : List (String × String) → String → String → List (String × String)
  | [], k, v => [(k, v)]
  | (k', v') :: rest, k, v =>
    if k' = k then (k, v) :: rest else (k', v') :: dictInsert rest k v

/-- Embedding of the section-extraction loop of `read_latex_resume`
(latex_parser.py lines 39-46): insert each match into the dict,
last-write-wins on duplicate headings. -/
def extract_sections (body : String) : List (String × String) :=
  (find_sections body.data).foldl (fun m kv => dictInsert m kv.1 kv.2) []

/-- Embedding of the `ResumeContent` pydantic model. -/
structure ResumeContent where
  raw_content : String
  sections : List (String × String)
  preamble : String
deriving DecidableEq

/-- Embedding of the pure core of `read_latex_resume` (latex_parser.py
lines 29-52), taking the file's content string: split the text at the
first `\begin{document}` into preamble and body, extract the sections
from the body. -/
def read_latex_resume (content : String) : ResumeContent :=
  let pb : String × String :=
    match strFind content beginDocumentMarker with
    | none => ("", content)
    | some p => (pyTake content p, pyDrop content p)
  { raw_content := content, sections := extract_sections pb.2, preamble := pb.1 }

/-- Soundness of `listFindFrom` at a hit: the pattern occurs at the
returned index and at no earlier index. -/
theorem listFindFrom_some_spec (pat : List Char) :
    ∀ (l : List Char) (p : Nat), listFindFrom pat l = some p →
      isPrefixList pat (l.drop p) = true ∧
      ∀ q, q < p → isPrefixList pat (l.drop q) = false := by
  intro l
  induction l with
  | nil =>
    intro p hp
    simp only [listFindFrom] at hp
    by_cases h : isPrefixList pat [] = true
    · simp [h] at hp
      subst hp
      exact ⟨h, fun q hq => absurd hq (Nat.not_lt_zero q)⟩
    · simp [h] at hp
  | cons c rest ih =>
    intro p hp
    simp only [listFindFrom] at hp
    by_cases h : isPrefixList pat (c :: rest) = true
    · simp [h] at hp
      subst hp
      exact ⟨h, fun q hq => absurd hq (Nat.not_lt_zero q)⟩
    · simp [h] at hp
      obtain ⟨n, hn, rfl⟩ := hp
      obtain ⟨h1, h2⟩ := ih n hn
      refine ⟨h1, ?_⟩
      intro q hq
      cases q with
      | zero => simpa using Bool.eq_false_iff.mpr h
      | succ q' => exact h2 q' (Nat.lt_of_succ_lt_succ hq)

/-- Soundness of `listFindFrom` at a miss: the pattern occurs at no
index. -/
theorem listFindFrom_none_spec (pat : List Char) :
    ∀ (l : List Char), listFindFrom pat l = none →
      ∀ q, isPrefixList pat (l.drop q) = false := by
  intro l
  induction l with
  | nil =>
    intro hp q
    simp only [listFindFrom] at hp
    by_cases h : isPrefixList pat [] = true
    · simp [h] at hp
    · simpa using Bool.eq_false_iff.mpr h
  | cons c rest ih =>
    intro hp q
    simp only [listFindFrom] at hp
    by_cases h : isPrefixList pat (c :: rest) = true
    · simp [h] at hp
    · simp [h] at hp
      cases q with
      | zero => simpa using Bool.eq_false_iff.mpr h
      | succ q' => exact ih hp q'

/-- Claim C5: when the document-start marker first occurs at index `P`,
`read_latex_resume` yields `preamble == text[0:P]` and sections derived
only from `text[P:]`, and preamble plus body partition the text; when
no marker occurs, `preamble == ""` and the whole text is searched. -/
theorem read_latex_resume_splits_at_marker (content : String) :
    (∀ p, strFind content beginDocumentMarker = some p →
      (read_latex_resume content).preamble = pyTake content p ∧
      (read_latex_resume content).sections =
        extract_sections (pyDrop content p) ∧
      (read_latex_resume content).preamble ++ pyDrop content p = content ∧
      isPrefixList beginDocumentMarker.data (content.data.drop p) = true ∧
      (∀ q, q < p →
        isPrefixList beginDocumentMarker.data (content.data.drop q) = false)) ∧
    (strFind content beginDocumentMarker = none →
      (read_latex_resume content).preamble = "" ∧
      (read_latex_resume content).sections = extract_sections content ∧
      (∀ q, isPrefixList beginDocumentMarker.data (content.data.drop q) = false)) := by
  constructor
  · intro p hp
    obtain ⟨h1, h2⟩ := listFindFrom_some_spec beginDocumentMarker.data content.data p hp
    refine ⟨?_, ?_, ?_, h1, h2⟩
    · simp [read_latex_resume, hp]
    · simp [read_latex_resume, hp]
    · simp only [read_latex_resume, hp]
      apply String.ext
      simp [pyTake, pyDrop, String.data_append]
  · intro hp
    refine ⟨?_, ?_, listFindFrom_none_spec beginDocumentMarker.data content.data hp⟩
    · simp [read_latex_resume, hp]
    · simp [read_latex_resume, hp]

/-- Claim C5, witness: a concrete document with preamble text before
`\begin{document}` (first occurrence at index 23) splits there. -/
theorem read_latex_resume_splits_witness :
    strFind "\\documentclass\x7bcv\x7d pre\\begin\x7bdocument\x7d\\section\x7bA\x7d body"
      beginDocumentMarker = some 22 ∧
    (read_latex_resume
      "\\documentclass\x7bcv\x7d pre\\begin\x7bdocument\x7d\\section\x7bA\x7d body").preamble =
      "\\documentclass\x7bcv\x7d pre" ∧
    (read_latex_resume
      "\\documentclass\x7bcv\x7d pre\\begin\x7bdocument\x7d\\section\x7bA\x7d body").sections =
      [("A", "body")] := by
  refine ⟨by decide, ?_, ?_⟩
  · have h := (read_latex_resume_splits_at_marker
      "\\documentclass\x7bcv\x7d pre\\begin\x7bdocument\x7d\\section\x7bA\x7d body").1
      22 (by decide)
    rw [h.1]
    decide
  · have h := (read_latex_resume_splits_at_marker
      "\\documentclass\x7bcv\x7d pre\\begin\x7bdocument\x7d\\section\x7bA\x7d body").1
      22 (by decide)
    rw [h.2.1]
    decide

/-! ## Claims about the validator -/

/-- Claim C2, counterexample: the input `"x"` has balanced braces, no
document markers and no document-class declaration, yet
`validate_latex` returns `is_valid == false`, because the
soft missing-documentclass issue is counted in `len(issues) == 0`.
The claim states such a text validates as `is_valid == true`. -/
theorem validate_softissue_flips_invalid :
    validate_latex "x" =
      (false, ["Missing \\documentclass (might be okay for snippets)"]) ∧
    braceIssueList "x" = [] ∧ markerIssueList "x" = [] := by
  decide

/-- Claim C2, amended: `is_valid` is true iff NO issues at all were
recorded — neither a hard issue (brace imbalance, unpaired document
marker) nor the soft missing-documentclass issue; the soft issue alone
does make `is_valid` false. -/
theorem validate_isvalid_iff_no_issues (content : String) :
    (validate_latex content).1 = true ↔
      (braceIssueList content = [] ∧ markerIssueList content = [] ∧
        docclassIssueList content = []) := by
  simp [validate_latex, List.length_eq_zero, List.append_eq_nil,
    and_assoc]

/-- Claim C7: input `"{{}"` yields `is_valid == false` with an
"Unmatched opening braces (depth: 1)" issue, and input `"{}}"` yields
`is_valid == false` with an "Unmatched closing brace at position 2"
issue. -/
theorem validate_brace_boundary_cases :
    (validate_latex "\x7b\x7b\x7d").1 = false ∧
    "Unmatched opening braces (depth: 1)" ∈
      (validate_latex "\x7b\x7b\x7d").2 ∧
    (validate_latex "\x7b\x7d\x7d").1 = false ∧
    "Unmatched closing brace at position 2" ∈
      (validate_latex "\x7b\x7d\x7d").2 := by
  decide

/-- Claim C10: the brace scan has no lexical awareness, so an input
whose only brace character is part of the escape sequence `\}` (here
`"ab \} cd"`, position 4 holding the brace) is reported as a brace
imbalance and `is_valid == false`. -/
theorem validate_counts_escaped_braces :
    ("ab \\\x7d cd".data.filter
        (fun c => c = '\x7b' || c = '\x7d')).length = 1 ∧
    strContains "ab \\\x7d cd" "\\\x7d" = true ∧
    "Unmatched closing brace at position 4" ∈
      braceIssueList "ab \\\x7d cd" ∧
    (validate_latex "ab \\\x7d cd").1 = false := by
  decide

/-! ## Profile store (`user_profiles.py`)

The profile directory is modelled as an association list from file name
to the stored `UserProfile`; writing a file overwrites the entry in
place. The impure `datetime.now()` timestamp is passed explicitly as a
`now` argument to the operations that consult it. Python `Dict[str, str]`
values are association lists compared with Python's dict equality
(same keys, same value per key). -/

/-- Python `Dict[str, str]` values. -/
abbrev PyDict := List (String × String)

/-- Embedding of Python dict lookup `d.get(k)` (first binding wins;
dicts built from JSON have unique keys). -/
def dictLookup : PyDict → String → Option String
  | [], _ => none
  | (k', v') :: rest, k => if k' = k then some v' else dictLookup rest k

/-- Embedding of Python dict equality `d1 == d2`: same key set with the
same value at every key. -/
def pyDictEq (d₁ d₂ : PyDict) : Bool :=
  d₁.all (fun kv => dictLookup d₂ kv.1 == dictLookup d₁ kv.1) &&
  d₂.all (fun kv => dictLookup d₁ kv.1 == dictLookup d₂ kv.1)

/-- Embedding of Python string equality used by `in` on `List[str]`. -/
def pyStrEq (a b : String) : Bool := a == b

/-- Embedding of Python `x in l` with element equality `eq`. -/
def pyListContains (eq : α → α → Bool) (l : List α) (x : α) : Bool :=
  l.any (fun y => eq y x)

/-- Embedding of the pydantic `UserProfile` model (user_profiles.py
lines 11-53); `created_at`/`updated_at` hold the ISO timestamp strings. -/
structure UserProfile where
  user_id : String
  name : String
  created_at : String
  updated_at : String
  experiences : List PyDict
  skills : List String
  projects : List PyDict
  education : List PyDict
  preferences : PyDict
  notes : List String
  resume_files : List String
deriving DecidableEq

/-- A freshly constructed `UserProfile` with all list/dict fields at
their pydantic defaults and both timestamps at `now`. -/
def newUserProfile (now user_id name : String) (resume_files : List String) :
    UserProfile :=
  { user_id := user_id, name := name, created_at := now, updated_at := now,
    experiences := [], skills := [], projects := [], education := [],
    preferences := [], notes := [], resume_files := resume_files }

/-- The profile directory: file name to stored profile. -/
abbrev Store := List (String × UserProfile)

/-- Read a file from the profile directory. -/
def storeLookup : Store → String → Option UserProfile
  | [], _ => none
  | (k', v') :: rest, k => if k' = k then some v' else storeLookup rest k

/-- Write a file into the profile directory, overwriting in place. -/
def storeWrite : Store → String → UserProfile → Store
  | [], k, v => [(k, v)]
  | (k', v') :: rest, k, v =>
    if k' = k then (k, v) :: rest else (k', v') :: storeWrite rest k v

/-- Embedding of Python `s.replace(a, b)` for single-character `a`, `b`. -/
def replaceChar (s : String) (a b : Char) : String :=
  String.mk (s.data.map (fun c => if c = a then b else c))

/-- Embedding of the filesystem-safe encoding in
`UserProfileManager._get_profile_path` (user_profiles.py line 71):
`user_id.replace("/", "_").replace("\\", "_")`. -/
def safe_id (user_id : String) : String :=
  replaceChar (replaceChar user_id '/' '_') '\\' '_'

/-- Embedding of `_get_profile_path` (line 72): the profile file name
`{safe_id}.json` (the constant directory part is dropped). -/
def get_profile_path (user_id : String) : String :=
  safe_id user_id ++ ".json"

/-- Embedding of `profile_exists` (lines 74-76). -/
def profile_exists (store : Store) (user_id : String) : Bool :=
  (storeLookup store (get_profile_path user_id)).isSome

/-- Embedding of `load_profile` (lines 78-99); the store holds parsed
profiles, so the deserialization-failure branch does not arise. -/
def load_profile (store : Store) (user_id : String) : Option UserProfile :=
  storeLookup store (get_profile_path user_id)

/-- Embedding of `save_profile` (lines 101-112): refresh `updated_at`
then overwrite the profile file. -/
def save_profile (store : Store) (now : String) (profile : UserProfile) :
    Store :=
  storeWrite store (get_profile_path profile.user_id)
    { profile with updated_at := now }

/-- Embedding of `create_profile` (lines 114-138): build a fresh
profile (with `[resume_path]` when the path is non-empty) and save it;
no existence check is performed. Returns the store and the profile. -/
def create_profile (store : Store) (now user_id name resume_path : String) :
    Store × UserProfile :=
  let profile := newUserProfile now user_id name
    (if resume_path ≠ "" then [resume_path] else [])
  (save_profile store now profile, profile)

/-- Embedding of the append-if-absent merge loop of
`update_from_conversation` (lines 161-174) for one list field. -/
def mergeAbsent (eq : α → α → Bool) (cur new : List α) : List α :=
  new.foldl (fun acc x => if pyListContains eq acc x then acc else acc ++ [x])
    cur

/-- Embedding of `update_from_conversation` (lines 140-176): load the
profile (creating and saving a bare one when absent — Python falsiness
makes `None` and `[]` both skip a merge), merge each list additively,
save. -/
def update_from_conversation (store : Store) (now user_id : String)
    (experiences : Option (List PyDict)) (skills : Option (List String))
    (notes : Option (List String)) : Store :=
  let sp : Store × UserProfile :=
    match load_profile store user_id with
    | some p => (store, p)
    | none => create_profile store now user_id "" ""
  let p₁ := sp.2
  let p₂ := match experiences with
    | some es => if es.isEmpty then p₁
        else { p₁ with experiences := mergeAbsent pyDictEq p₁.experiences es }
    | none => p₁
  let p₃ := match skills with
    | some sk => if sk.isEmpty then p₂
        else { p₂ with skills := mergeAbsent pyStrEq p₂.skills sk }
    | none => p₂
  let p₄ := match notes with
    | some ns => if ns.isEmpty then p₃
        else { p₃ with notes := mergeAbsent pyStrEq p₃.notes ns }
    | none => p₃
  save_profile sp.1 now p₄

/-! ## Claims about the profile store -/

/-- Containment under `any` is preserved by appending on the right. -/
theorem pyListContains_append (eq : α → α → Bool) (l₁ l₂ : List α) (x : α)
    (h : pyListContains eq l₁ x = true) :
    pyListContains eq (l₁ ++ l₂) x = true := by
  simp only [pyListContains, List.any_append]
  simp [pyListContains] at h
  simp [h]

/-- Merging only appends, so containment is monotone. -/
theorem mergeAbsent_contains_mono (eq : α → α → Bool) (new : List α) :
    ∀ (acc : List α) (x : α), pyListContains eq acc x = true →
      pyListContains eq (mergeAbsent eq acc new) x = true := by
  induction new with
  | nil => intro acc x h; simpa [mergeAbsent] using h
  | cons y ys ih =>
    intro acc x h
    simp only [mergeAbsent, List.foldl_cons]
    by_cases hy : pyListContains eq acc y = true
    · simpa [mergeAbsent, hy] using ih acc x h
    · have h' : pyListContains eq (acc ++ [y]) x = true :=
        pyListContains_append eq acc [y] x h
      simpa [mergeAbsent, hy] using ih (acc ++ [y]) x h'

/-- After merging, every merged element is contained (for a reflexive
element equality). -/
theorem mergeAbsent_contains_of_mem (eq : α → α → Bool)
    (hrefl : ∀ y : α, eq y y = true) (new : List α) :
    ∀ (acc : List α) (x : α), x ∈ new →
      pyListContains eq (mergeAbsent eq acc new) x = true := by
  induction new with
  | nil => intro acc x h; cases h
  | cons y ys ih =>
    intro acc x h
    simp only [mergeAbsent, List.foldl_cons]
    rcases List.mem_cons.mp h with rfl | hmem
    · by_cases hy : pyListContains eq acc x = true
      · simpa [mergeAbsent, hy] using
          mergeAbsent_contains_mono eq ys acc x hy
      · have hx : pyListContains eq (acc ++ [x]) x = true := by
          simp [pyListContains, hrefl x]
        simpa [mergeAbsent, hy] using
          mergeAbsent_contains_mono eq ys (acc ++ [x]) x hx
    · by_cases hy : pyListContains eq acc y = true
      · simpa [mergeAbsent, hy] using ih acc x hmem
      · simpa [mergeAbsent, hy] using ih (acc ++ [y]) x hmem

/-- Merging elements that are all already contained changes nothing. -/
theorem mergeAbsent_eq_self (eq : α → α → Bool) (new : List α) :
    ∀ acc : List α, (∀ x ∈ new, pyListContains eq acc x = true) →
      mergeAbsent eq acc new = acc := by
  induction new with
  | nil => intro acc _; rfl
  | cons y ys ih =>
    intro acc h
    have hy : pyListContains eq acc y = true := h y (List.mem_cons_self y ys)
    simp only [mergeAbsent, List.foldl_cons, hy, if_pos]
    exact ih acc (fun x hx => h x (List.mem_cons_of_mem y hx))

/-- Merging the same list twice equals merging it once, for a reflexive
element equality. -/
theorem mergeAbsent_idem (eq : α → α → Bool)
    (hrefl : ∀ y : α, eq y y = true) (cur new : List α) :
    mergeAbsent eq (mergeAbsent eq cur new) new = mergeAbsent eq cur new :=
  mergeAbsent_eq_self eq new (mergeAbsent eq cur new)
    (fun x hx => mergeAbsent_contains_of_mem eq hrefl new cur x hx)

/-- Python dict equality is reflexive. -/
theorem pyDictEq_refl (d : PyDict) : pyDictEq d d = true := by
  simp [pyDictEq, List.all_eq_true]

/-- Claim C6: the profile merge is idempotent per element — merging a
list of skills, notes or experience entries a second time leaves the
stored list unchanged — and the concrete double merge of skill
`"Python"` into a fresh profile stores exactly one `"Python"` entry. -/
theorem profile_merge_idempotent :
    (∀ cur new : List String,
      mergeAbsent pyStrEq (mergeAbsent pyStrEq cur new) new =
        mergeAbsent pyStrEq cur new) ∧
    (∀ cur new : List PyDict,
      mergeAbsent pyDictEq (mergeAbsent pyDictEq cur new) new =
        mergeAbsent pyDictEq cur new) ∧
    ((load_profile
        (update_from_conversation
          (update_from_conversation [] "2024-01-01T00:00:00" "u"
            none (some ["Python"]) none)
          "2024-01-02T00:00:00" "u" none (some ["Python"]) none)
        "u").map (fun p => p.skills) = some ["Python"]) := by
  refine ⟨?_, ?_, ?_⟩
  · intro cur new
    exact mergeAbsent_idem pyStrEq (fun y => by simp [pyStrEq]) cur new
  · intro cur new
    exact mergeAbsent_idem pyDictEq pyDictEq_refl cur new
  · decide

/-- Claim C8, counterexample: the filesystem-safe encoding is not
injective — the distinct user ids `"a/b"` and `"a_b"` resolve to the
same profile file. -/
theorem get_profile_path_not_injective :
    get_profile_path "a/b" = get_profile_path "a_b" ∧
    ("a/b" : String) ≠ "a_b" := by
  decide

/-- Characters other than the replaced one are left unchanged, so the
map underlying `replaceChar` is the identity on clean input. -/
theorem mapReplace_id (a b : Char) :
    ∀ l : List Char, (∀ c ∈ l, ¬(c = a)) →
      l.map (fun c => if c = a then b else c) = l := by
  intro l hl
  induction l with
  | nil => rfl
  | cons c rest ih =>
    have hc : ¬(c = a) := hl c (List.mem_cons_self c rest)
    simp only [List.map_cons, if_neg hc]
    rw [ih (fun x hx => hl x (List.mem_cons_of_mem c hx))]

/-- Characters other than the replaced one are left unchanged, so
`replaceChar` is the identity on clean input. -/
theorem replaceChar_id (s : String) (a b : Char)
    (h : ∀ c ∈ s.data, ¬(c = a)) : replaceChar s a b = s := by
  apply String.ext
  simp only [replaceChar]
  exact mapReplace_id a b s.data h

/-- Claim C8, amended: the encoding collapses `/` and `\` with `_`, so
it is injective only on user ids free of path separators: two such ids
with the same profile file are equal. -/
theorem get_profile_path_injective_on_clean_ids (u₁ u₂ : String)
    (h₁ : ∀ c ∈ u₁.data, ¬(c = '/' ∨ c = '\\'))
    (h₂ : ∀ c ∈ u₂.data, ¬(c = '/' ∨ c = '\\'))
    (h : get_profile_path u₁ = get_profile_path u₂) : u₁ = u₂ := by
  have e₁ : safe_id u₁ = u₁ := by
    simp only [safe_id]
    rw [replaceChar_id u₁ '/' '_' (fun c hc => fun he => h₁ c hc (Or.inl he))]
    exact replaceChar_id u₁ '\\' '_' (fun c hc => fun he => h₁ c hc (Or.inr he))
  have e₂ : safe_id u₂ = u₂ := by
    simp only [safe_id]
    rw [replaceChar_id u₂ '/' '_' (fun c hc => fun he => h₂ c hc (Or.inl he))]
    exact replaceChar_id u₂ '\\' '_' (fun c hc => fun he => h₂ c hc (Or.inr he))
  rw [get_profile_path, get_profile_path, e₁, e₂] at h
  have hd : u₁.data ++ ".json".data = u₂.data ++ ".json".data := by
    have := congrArg String.data h
    simpa [String.data_append] using this
  exact String.ext (List.append_cancel_right hd)

/-- Claim C8, amended, witness: the injectivity theorem applies at the
separator-free id `"alice"`. -/
theorem get_profile_path_injective_witness :
    (∀ c ∈ ("alice" : String).data, ¬(c = '/' ∨ c = '\\')) ∧
    ("alice" : String) = "alice" :=
  ⟨by decide, get_profile_path_injective_on_clean_ids "alice" "alice"
    (by decide) (by decide) rfl⟩

/-- Claim C4, counterexample: with a profile already stored for
`"alice"`, `create_profile` succeeds and silently replaces it — the
stored profile afterwards is the fresh one, not the old one. -/
theorem create_profile_overwrites_existing :
    profile_exists
      [(get_profile_path "alice",
        newUserProfile "2024-01-01T00:00:00" "alice" "Old Name" ["old.tex"])]
      "alice" = true ∧
    (create_profile
      [(get_profile_path "alice",
        newUserProfile "2024-01-01T00:00:00" "alice" "Old Name" ["old.tex"])]
      "2024-02-02T00:00:00" "alice" "" "new.tex").1 =
      [(get_profile_path "alice",
        newUserProfile "2024-02-02T00:00:00" "alice" "" ["new.tex"])] ∧
    newUserProfile "2024-02-02T00:00:00" "alice" "" ["new.tex"] ≠
      newUserProfile "2024-01-01T00:00:00" "alice" "Old Name" ["old.tex"] := by
  decide

/-- Lookup after an overwrite returns the written profile. -/
theorem storeLookup_storeWrite_self (store : Store) (k : String)
    (v : UserProfile) : storeLookup (storeWrite store k v) k = some v := by
  induction store with
  | nil => simp [storeWrite, storeLookup]
  | cons kv rest ih =>
    by_cases h : kv.1 = k
    · simp [storeWrite, storeLookup, h]
    · simp [storeWrite, storeLookup, h, ih]

/-- Claim C4, amended: `create_profile` performs no existence check: it
always succeeds, and afterwards the user's profile file holds the
freshly created profile — silently replacing any previously stored
one. Callers must guard with `profile_exists` first. -/
theorem create_profile_always_overwrites (store : Store)
    (now user_id name resume_path : String) :
    storeLookup (create_profile store now user_id name resume_path).1
        (get_profile_path user_id) =
      some (create_profile store now user_id name resume_path).2 := by
  simp [create_profile, save_profile, newUserProfile,
    storeLookup_storeWrite_self]

/-! ## Content-acquisition pipeline (`job_fetcher.py`)

The network, the HTML parser and the headless browser are external
capabilities; they are modelled extensionally. A `Page` records the
answers BeautifulSoup would give to exactly the queries the code makes
of a parsed document: the flattened text used by the JavaScript check,
the extracted JSON-LD job posting, the visible text after stripping
non-content tags, and the stripped text of the first element matching
a CSS selector (`select_one` composed with `get_text(strip=True)`).
A `FetchWorld` records the outcome of each effect: the direct HTTP GET
(`none` models `requests.RequestException`), whether Playwright is
importable, and the rendered page and title (`none` models an exception
during rendering; the exception's text, interpolated into one error
message by the source, is outside the model). -/

/-- Embedding of the `JobDescription` pydantic model
(job_fetcher.py lines 11-18). -/
structure JobDescription where
  url : String
  raw_text : String
  title : String
  company : String
  requirements : List String
deriving DecidableEq

/-- The nested `hiringOrganization` object of a JSON-LD job posting;
`name` holds `get('name', '')`. `none` at the use site covers both an
absent field and a non-dict value. -/
structure HiringOrganization where
  name : String
deriving DecidableEq

/-- A JSON-LD `JobPosting` block as consumed by the code: each string
field holds `get(field, '')`. -/
structure JobPostingLd where
  title : String
  hiringOrganization : Option HiringOrganization
  description : String
  qualifications : String
deriving DecidableEq

/-- Extensional model of a parsed HTML page (see section comment). -/
structure Page where
  text_check : String
  json_ld : Option JobPostingLd
  stripped_text : String
  selectOne : String → Option String

/-- Outcomes of the external effects of one acquisition call. -/
structure FetchWorld where
  http : Option Page
  playwright_available : Bool
  render : Option (Page × String)

/-- The fixed JavaScript-warning phrases (job_fetcher.py lines 110-112). -/
def jsWarningPhrases : List String :=
  ["please enable javascript", "javascript is required",
   "this site requires javascript"]

/-- Embedding of the rendering-required heuristic (lines 109-113):
visible text under 1000 characters, or any warning phrase in the
lower-cased text. -/
def needs_javascript (p : Page) : Bool :=
  decide (p.text_check.length < 1000) ||
  jsWarningPhrases.any (fun ph => strContains (pyLower p.text_check) ph)

/-- The exception message raised when rendering is needed but
Playwright is unavailable (lines 125-128). -/
def jsRequiredMsg (url : String) : String :=
  "Failed to fetch " ++ url ++ ". This page may require JavaScript. " ++
  "Install Playwright with: uv pip install playwright && playwright install chromium"

/-- The exception message raised when rendering itself fails with no
step-1 content (line 132); the interpolated exception text is outside
the model. -/
def renderFailMsg (url : String) : String :=
  "Failed to fetch job description from " ++ url

/-- Embedding of the acquisition control flow (lines 93-132), deciding
which HTML is ultimately parsed and the accompanying page title.
When `use_browser` is true, step 1 is skipped entirely, so escalation
proceeds with no step-1 content. On escalation with Playwright
unavailable (`ImportError`), the code raises iff step-1 content is
missing or `needs_javascript` was set; on a rendering failure
(generic exception), it raises iff step-1 content is missing,
otherwise continues with the step-1 content and an empty page title. -/
def selectContent (url : String) (use_browser : Bool) (w : FetchWorld) :
    Except String (Page × String) :=
  let http : Option Page := if use_browser then none else w.http
  match http with
  | none =>
    if w.playwright_available then
      match w.render with
      | some pt => Except.ok pt
      | none => Except.error (renderFailMsg url)
    else Except.error (jsRequiredMsg url)
  | some p =>
    if needs_javascript p || use_browser then
      if w.playwright_available then
        match w.render with
        | some pt => Except.ok pt
        | none => Except.ok (p, "")
      else
        if needs_javascript p then Except.error (jsRequiredMsg url)
        else Except.ok (p, "")
    else Except.ok (p, "")

/-- The ordered title selector patterns (lines 169-175). -/
def title_selectors : List String :=
  ["h1", "[class*=\"title\"]", "[class*=\"job-title\"]",
   "[data-automation*=\"jobTitle\"]", "[id*=\"title\"]"]

/-- The ordered company selector patterns (lines 188-193). -/
def company_selectors : List String :=
  ["[class*=\"company\"]", "[class*=\"employer\"]",
   "[data-automation*=\"company\"]", "[class*=\"organization\"]"]

/-- Embedding of the selector loops (lines 176-180, 194-198): first
selector whose element exists with non-empty stripped text. -/
def firstSelectorText (p : Page) : List String → String
  | [] => ""
  | s :: rest =>
    match p.selectOne s with
    | some t => if t = "" then firstSelectorText p rest else t
    | none => firstSelectorText p rest

/-- Uppercase ASCII letter, the class `[A-Z]`. -/
def isUpperAZ (c : Char) : Bool := 'A' ≤ c && c ≤ 'Z'

/-- The character class `[a-zA-Z\s&]` of the company regex. -/
def isCompanyBodyChar (c : Char) : Bool :=
  ('a' ≤ c && c ≤ 'z') || ('A' ≤ c && c ≤ 'Z') || isPySpace c || c = '&'

/-- The tail `(?:\s*$|\s*-)` of the company regex at a position: either
only whitespace remains, or a `-` follows the whitespace run. -/
def companyTailMatch (l : List Char) : Bool :=
  l.all isPySpace ||
  (match l.dropWhile isPySpace with
   | '-' :: _ => true
   | _ => false)

/-- Greedy `[a-zA-Z\s&]+` with backtracking: try body lengths from the
maximal run length downwards until the tail matches; `run` is the
maximal body-char run and `rest` the full list after the `[A-Z]` char. -/
def companyTryLen (c : Char) (run rest : List Char) : Nat → Option String
  | 0 => none
  | m + 1 =>
    if companyTailMatch (rest.drop (m + 1)) then
      some (String.mk (c :: run.take (m + 1)))
    else companyTryLen c run rest m

/-- Group 1 `([A-Z][a-zA-Z\s&]+)` followed by the tail, at a position. -/
def companyMatchCap (l : List Char) : Option String :=
  match l with
  | [] => none
  | c :: rest =>
    if isUpperAZ c then
      let run := rest.takeWhile isCompanyBodyChar
      companyTryLen c run rest run.length
    else none

/-- The regex `(?:at|@|-)\s*([A-Z][a-zA-Z\s&]+)(?:\s*$|\s*-)` tried at
one position, alternatives in order with fallback. After the prefix,
the greedy `\s*` must consume exactly the maximal whitespace run, since
`[A-Z]` never matches whitespace. -/
def companyMatchAt (l : List Char) : Option String :=
  match (if isPrefixList "at".data l then
      companyMatchCap ((l.drop 2).dropWhile isPySpace) else none) with
  | some g => some g
  | none =>
    match (if isPrefixList "@".data l then
        companyMatchCap ((l.drop 1).dropWhile isPySpace) else none) with
    | some g => some g
    | none =>
      if isPrefixList "-".data l then
        companyMatchCap ((l.drop 1).dropWhile isPySpace)
      else none

/-- Embedding of `re.search` with the company pattern: leftmost match. -/
def companySearch : List Char → Option String
  | [] => none
  | l@(_ :: rest) =>
    match companyMatchAt l with
    | some g => some g
    | none => companySearch rest

/-- Embedding of the company-from-title extraction (lines 210-215):
search the title text and strip the captured group. -/
def companyFromTitle (title_text : String) : Option String :=
  (companySearch title_text.data).map pyStrip

/-- At a position, a match of the cleanup pattern `\n\s*\n\s*\n+`: a
leading newline whose following contiguous whitespace run holds at
least two more newlines. Under greedy backtracking the match extends
through the last newline of the run; returns the remainder after it. -/
def blankMatch (l : List Char) : Option (List Char) :=
  match l with
  | '\n' :: rest =>
    let ws := rest.takeWhile isPySpace
    if 2 ≤ ws.count '\n' then
      some ((ws.reverse.takeWhile (fun c => ¬(c = '\n'))).reverse ++
        rest.drop ws.length)
    else none
  | _ => none

/-- Embedding of `re.sub(r'\n\s*\n\s*\n+', '\n\n', text)` (line 218):
replace each leftmost match with one blank line and resume after it.
Fuel bounds the scanning steps; every step strictly shortens the list,
so the cutoff is never reached. -/
def cleanTextAux : Nat → List Char → List Char
  | 0, l => l
  | _ + 1, [] => []
  | fuel + 1, c :: rest =>
    match blankMatch (c :: rest) with
    | some rem => '\n' :: '\n' :: cleanTextAux fuel rem
    | none => c :: cleanTextAux fuel rest

/-- The newline-collapsing cleanup applied to `description_text`. -/
def clean_text (s : String) : String :=
  String.mk (cleanTextAux s.data.length s.data)

/-- Embedding of the extraction phase of `fetch_job_description`
(lines 134-225) on the selected page and page title: JSON-LD metadata
first, then the selector/URL/regex fallbacks for each empty field, then
the newline cleanup, assembling the final record (`requirements` is
never populated). -/
def parseChosen (url : String) (p : Page) (page_title : String) :
    JobDescription :=
  let meta : String × String × String :=
    match p.json_ld with
    | some jl =>
      (jl.title,
       (match jl.hiringOrganization with
        | some org => org.name
        | none => ""),
       (if jl.qualifications ≠ "" then
          jl.description ++ "\n\nQualifications:\n" ++ jl.qualifications
        else jl.description))
    | none => ("", "", "")
  let description₁ := if meta.2.2 = "" then p.stripped_text else meta.2.2
  let title₁ :=
    if meta.1 = "" then
      let t := firstSelectorText p title_selectors
      if t = "" && page_title ≠ "" then page_title else t
    else meta.1
  let company₁ :=
    if meta.2.1 = "" then
      let c₁ := firstSelectorText p company_selectors
      let c₂ :=
        if c₁ = "" then
          (if strContains (pyLower url) "apple.com" then "Apple"
           else if strContains (pyLower url) "linkedin.com" then "LinkedIn"
           else "")
        else c₁
      if c₂ = "" && (title₁ ≠ "" || page_title ≠ "") then
        match companyFromTitle (if title₁ ≠ "" then title₁ else page_title) with
        | some m => m
        | none => ""
      else c₂
    else meta.2.1
  { url := url, raw_text := clean_text description₁, title := title₁,
    company := company₁, requirements := [] }

/-- Embedding of `fetch_job_description` (lines 73-225): select the
content per the escalation control flow, then extract. -/
def fetch_job_description (url : String) (use_browser : Bool)
    (w : FetchWorld) : Except String JobDescription :=
  match selectContent url use_browser w with
  | Except.ok pt => Except.ok (parseChosen url pt.1 pt.2)
  | Except.error e => Except.error e

/-! ## Claims about the acquisition pipeline -/

/-- A page whose visible text is 50 characters with no JavaScript
warning phrase: the length threshold alone triggers escalation. -/
def shortPage : Page :=
  { text_check := String.mk (List.replicate 50 'x'),
    json_ld := none, stripped_text := "Short job text",
    selectOne := fun _ => none }

/-- A world where the direct fetch succeeded with `shortPage` but the
rendering capability is not installed. -/
def noRenderWorld : FetchWorld :=
  { http := some shortPage, playwright_available := false, render := none }

/-- A world where the direct fetch succeeded with `shortPage`, the
rendering capability is installed, but rendering itself fails. -/
def renderFailWorld : FetchWorld :=
  { http := some shortPage, playwright_available := true, render := none }

/-- Claim C1, counterexample: step 1 produced content (a 50-character
page, no warning phrase), the length threshold alone escalates, the
rendering capability is unavailable — and the call fails with the
missing-capability error instead of falling back to the step-1
content as the claim states. -/
theorem fetch_fails_despite_step1_content :
    shortPage.text_check.length = 50 ∧
    (jsWarningPhrases.any
      (fun ph => strContains (pyLower shortPage.text_check) ph)) = false ∧
    noRenderWorld.http = some shortPage ∧
    fetch_job_description "https://jobs.example/short" false noRenderWorld =
      Except.error (jsRequiredMsg "https://jobs.example/short") :=
  ⟨by decide, by decide, rfl, rfl⟩

/-- Claim C1, amended: when the rendering capability is unavailable and
escalation was triggered (by the heuristic or by a failed step 1), the
call fails even if step-1 content exists; the step-1 fallback occurs
only when the capability is available but the render attempt itself
fails with step-1 content present. -/
theorem fetch_render_fallback_characterization :
    (∀ (url : String) (w : FetchWorld) (p : Page), w.http = some p →
      needs_javascript p = true → w.playwright_available = false →
      fetch_job_description url false w = Except.error (jsRequiredMsg url)) ∧
    (∀ (url : String) (w : FetchWorld), w.http = none →
      w.playwright_available = false →
      fetch_job_description url false w = Except.error (jsRequiredMsg url)) ∧
    (∀ (url : String) (w : FetchWorld) (p : Page), w.http = some p →
      needs_javascript p = true → w.playwright_available = true →
      w.render = none →
      fetch_job_description url false w = Except.ok (parseChosen url p "")) := by
  refine ⟨?_, ?_, ?_⟩
  · intro url w p hw hj hpa
    simp [fetch_job_description, selectContent, hw, hj, hpa]
  · intro url w hw hpa
    simp [fetch_job_description, selectContent, hw, hpa]
  · intro url w p hw hj hpa hr
    simp [fetch_job_description, selectContent, hw, hj, hpa, hr]

/-- Claim C1, amended, witness: the render-failure fallback applies at
`renderFailWorld`, yielding the record built from the step-1 page. -/
theorem fetch_render_fallback_witness :
    fetch_job_description "https://jobs.example/short" false renderFailWorld =
      Except.ok (parseChosen "https://jobs.example/short" shortPage "") :=
  fetch_render_fallback_characterization.2.2 "https://jobs.example/short"
    renderFailWorld shortPage rfl (by decide) rfl rfl

/-- Non-empty left operand makes a string append non-empty. -/
theorem strAppend_ne_empty_left (a b : String) (h : a ≠ "") :
    a ++ b ≠ "" := by
  intro he
  apply h
  apply String.ext
  have hd := congrArg String.data he
  simp only [String.data_append] at hd
  exact (List.append_eq_nil.mp hd).1

/-- Claim C3: whenever the selected page carries JSON-LD job-posting
metadata with non-empty title, organization name and description, the
returned record takes exactly those fields — the selector heuristics,
page title and URL fallbacks are never consulted, regardless of any
conflicting heading text on the page. -/
theorem fetch_structured_metadata_wins (url : String) (use_browser : Bool)
    (w : FetchWorld) (p : Page) (t : String) (jl : JobPostingLd)
    (org : HiringOrganization)
    (hsel : selectContent url use_browser w = Except.ok (p, t))
    (hjl : p.json_ld = some jl)
    (horg : jl.hiringOrganization = some org)
    (ht : jl.title ≠ "") (hn : org.name ≠ "") (hd : jl.description ≠ "") :
    fetch_job_description url use_browser w = Except.ok
      { url := url,
        raw_text := clean_text
          (if jl.qualifications ≠ "" then
             jl.description ++ "\n\nQualifications:\n" ++ jl.qualifications
           else jl.description),
        title := jl.title, company := org.name, requirements := [] } := by
  have hdq : (if jl.qualifications = "" then jl.description
    else jl.description ++ "\n\nQualifications:\n" ++ jl.qualifications) ≠ "" := by
    by_cases hq : jl.qualifications = ""
    · simpa [hq] using hd
    · have h1 : jl.description ++ "\n\nQualifications:\n" ≠ "" :=
        strAppend_ne_empty_left _ _ hd
      have h2 : jl.description ++ "\n\nQualifications:\n" ++
          jl.qualifications ≠ "" :=
        strAppend_ne_empty_left _ _ h1
      simpa [hq] using h2
  simp only [fetch_job_description, hsel]
  simp [parseChosen, hjl, horg, hdq, ht, hn]

/-- The page of the concrete C3 scenario: JSON-LD metadata with title
"Data Analyst", organization "Acme", description "Analyze data.", and
conflicting heading/company text available to every selector. -/
def pageDA : Page :=
  { text_check := "Data Analyst at Acme",
    json_ld := some { title := "Data Analyst",
                      hiringOrganization := some { name := "Acme" },
                      description := "Analyze data.",
                      qualifications := "" },
    stripped_text := "Conflicting\nAnalyze data.",
    selectOne := fun sel =>
      if sel = "h1" then some "Conflicting Heading" else some "WrongCo" }

/-- A world that renders `pageDA` with a conflicting page title. -/
def worldDA : FetchWorld :=
  { http := none, playwright_available := true,
    render := some (pageDA, "Conflicting Page Title") }

/-- Claim C3, witness: the scenario yields exactly the metadata fields
despite the conflicting heading, company and page-title text. -/
theorem fetch_structured_metadata_wins_witness :
    fetch_job_description "https://jobs.example/da" true worldDA =
      Except.ok
        { url := "https://jobs.example/da",
          raw_text := "Analyze data.", title := "Data Analyst",
          company := "Acme", requirements := [] } := by
  have h := fetch_structured_metadata_wins "https://jobs.example/da" true
    worldDA pageDA "Conflicting Page Title"
    { title := "Data Analyst", hiringOrganization := some { name := "Acme" },
      description := "Analyze data.", qualifications := "" }
    { name := "Acme" } rfl rfl rfl (by decide) (by decide) (by decide)
  rw [h]
  rfl

/-- Claim C9: no acquisition path populates `requirements` — every
successful call returns a record whose `requirements` is empty. -/
theorem fetch_requirements_always_empty (url : String) (use_browser : Bool)
    (w : FetchWorld) (r : JobDescription)
    (h : fetch_job_description url use_browser w = Except.ok r) :
    r.requirements = [] := by
  unfold fetch_job_description at h
  cases hs : selectContent url use_browser w with
  | ok pt =>
    rw [hs] at h
    have hr : r = parseChosen url pt.1 pt.2 := by
      injection h with h'
      exact h'.symm
    rw [hr]
    rfl
  | error e =>
    rw [hs] at h
    cases h

/-- Claim C9, witness: a successful concrete acquisition has empty
`requirements`. -/
theorem fetch_requirements_always_empty_witness :
    fetch_job_description "https://jobs.example/da" true worldDA =
      Except.ok (parseChosen "https://jobs.example/da" pageDA
        "Conflicting Page Title") ∧
    (parseChosen "https://jobs.example/da" pageDA
      "Conflicting Page Title").requirements = [] :=
  ⟨rfl, fetch_requirements_always_empty "https://jobs.example/da" true worldDA
    (parseChosen "https://jobs.example/da" pageDA "Conflicting Page Title")
    rfl⟩

end AutoResume
